import Mathlib

/-!
Verification of the Rubik's cube state model and rotation engine of the
`Rubik-s` repository.  The JavaScript sources are embedded shallowly:

* `rotatePosition`, `rotateFaceColors`, `selectPiecesForRotation`,
  `addRotation`, the commit branch of `useFrame`, `reset` and
  `initialPieces` come from `frontend/src/components/RubiksCube.jsx`;
* `parseMove` comes from the solver utility module (`cubeSolver`);
* `convertFaceCoordTo3D`, `get3DCoordFaceInfo`, `convertColorCharToHex`,
  `convertHexToColorChar`, `convertJsonToCubePieces` and
  `convertCubePiecesToJson` come from the loader utility
  (`cubeColorLoader`);
* the net mapping (`faceData` / `getGridIndex`) comes from
  `frontend/src/components/CubeNet.jsx` and `convertNetTo3DCoords` from
  the application root component.

JavaScript numbers are modelled with `ℤ`.  The only floating point in
the modelled code is `Math.cos`/`Math.sin` at `angle = direction·π/2`
for `direction = ±1`, fed into `Math.round`.  In IEEE doubles
`Math.sin(±Math.PI/2)` is exactly `±1.0`, while `Math.cos(±Math.PI/2)`
is the same tiny positive double `ε = 6.123233995736766e-17` for both
signs (cos is even and `Math.PI/2` is not exactly `π/2`).  Hence every
value fed to `Math.round` has the exact real value `a·ε + b` with
`a, b : ℤ`, and the rounding is computed exactly over the integers by
`jsRoundVal` below (`Math.round q = ⌊q + 1/2⌋`, round half towards
`+∞`); `jsRoundVal_eq_floor` proves this integer computation equal to
the rational `⌊(a·ε + b) + 1/2⌋`.
-/

/-- The three rotation axes `'x' | 'y' | 'z'` of `RubiksCube.jsx`. -/
inductive Axis | x | y | z
  deriving DecidableEq, Fintype, Repr

/-- The six face letters `U D L R F B`. -/
inductive Face | U | D | L | R | F | B
  deriving DecidableEq, Fintype, Repr

/-- A lattice position `[x, y, z]` (a JS array of three numbers). -/
structure Pos3 where
  x : ℤ
  y : ℤ
  z : ℤ
  deriving DecidableEq, Repr

/-- Sticker colors are JS numbers (hex color codes). -/
abbrev Color := ℕ

/-- Numerator of `ε = Math.cos(Math.PI/2) = 6.123233995736766e-17`
at scale `10^32`. -/
def cosHalfPiNum : ℤ := 6123233995736766

/-- Denominator scale for `ε`: `ε = cosHalfPiNum / floatScale`. -/
def floatScale : ℤ := 10 ^ 32

/-- The value of `ε = Math.cos(±Math.PI/2)` as a rational. -/
def epsQ : ℚ := (6123233995736766 : ℚ) / 10 ^ 32

/-- `Math.round (a·ε + b)` computed exactly over `ℤ`:
`⌊q + 1/2⌋ = ⌊(2·(a·εnum + b·scale) + scale) / (2·scale)⌋`. -/
def jsRoundVal (a b : ℤ) : ℤ :=
  Int.fdiv (2 * (a * cosHalfPiNum + b * floatScale) + floatScale) (2 * floatScale)

/-- `jsRoundVal a b` is the mathematical `⌊(a·ε + b) + 1/2⌋`, i.e. the
exact result of JS `Math.round` on the exact real value `a·ε + b`. -/
theorem jsRoundVal_eq_floor (a b : ℤ) :
    jsRoundVal a b = ⌊(a : ℚ) * epsQ + (b : ℚ) + 1 / 2⌋ := by
  have h : (a : ℚ) * epsQ + (b : ℚ) + 1 / 2 =
      ((2 * (a * cosHalfPiNum + b * floatScale) + floatScale : ℤ) : ℚ) /
        ((2 * 10 ^ 32 : ℕ) : ℚ) := by
    rw [epsQ, cosHalfPiNum, floatScale]
    push_cast
    ring
  rw [h, Rat.floor_intCast_div_natCast]
  rw [jsRoundVal]
  rw [Int.fdiv_eq_ediv _ (by norm_num [floatScale])]
  norm_num [floatScale]

/-- `rotatePosition` of `RubiksCube.jsx`: rotate a lattice position a
quarter turn about `axis` with `angle = direction·π/2`, rounding each
resulting component with `Math.round`.  Each component is the source's
expression with `cos angle = ε` and `sin angle = direction` substituted
(exact for `direction ∈ {1, -1}`, the only directions the application
passes): e.g. about `x`, `Math.round(y·cos − z·sin) = jsRoundVal y (−z·d)`
and `Math.round(y·sin + z·cos) = jsRoundVal z (y·d)`. -/
def rotatePosition (p : Pos3) (axis : Axis) (direction : ℤ) : Pos3 :=
  match axis with
  | .x => ⟨p.x, jsRoundVal p.y (-(p.z * direction)), jsRoundVal p.z (p.y * direction)⟩
  | .y => ⟨jsRoundVal p.x (p.z * direction), p.y, jsRoundVal p.z (-(p.x * direction))⟩
  | .z => ⟨jsRoundVal p.x (-(p.y * direction)), jsRoundVal p.y (p.x * direction), p.z⟩

/-- `rotateFaceColors` of `RubiksCube.jsx`.  The six slots are indexed
`[0 Right(+X), 1 Left(-X), 2 Top(+Y), 3 Bottom(-Y), 4 Front(+Z),
5 Back(-Z)]`.  The source copies the array and then overwrites four
slots; each branch below is the net effect of those four assignments
(the JS `else` branch handles every direction other than `1`). -/
def rotateFaceColors (colors : Fin 6 → Color) (axis : Axis) (direction : ℤ) :
    Fin 6 → Color :=
  match axis with
  | .x =>
    if direction = 1 then
      -- newColors[2]=Back, newColors[5]=Bottom, newColors[3]=Front, newColors[4]=Top
      fun i => if i = 2 then colors 5 else if i = 5 then colors 3
        else if i = 3 then colors 4 else if i = 4 then colors 2 else colors i
    else
      fun i => if i = 2 then colors 4 else if i = 4 then colors 3
        else if i = 3 then colors 5 else if i = 5 then colors 2 else colors i
  | .y =>
    if direction = 1 then
      fun i => if i = 0 then colors 4 else if i = 4 then colors 1
        else if i = 1 then colors 5 else if i = 5 then colors 0 else colors i
    else
      fun i => if i = 0 then colors 5 else if i = 5 then colors 1
        else if i = 1 then colors 4 else if i = 4 then colors 0 else colors i
  | .z =>
    if direction = 1 then
      fun i => if i = 0 then colors 3 else if i = 3 then colors 1
        else if i = 1 then colors 2 else if i = 2 then colors 0 else colors i
    else
      fun i => if i = 0 then colors 2 else if i = 2 then colors 1
        else if i = 1 then colors 3 else if i = 3 then colors 0 else colors i

/-- The component values `{-1, 0, 1}` of the cube lattice. -/
def coordVals : Finset ℤ := {-1, 0, 1}

/-- **C1.**  On the lattice `{-1,0,1}³` and for directions `±1`,
`rotatePosition` is the exact quarter-turn map claimed for each axis:
about X it sends `(x,y,z)` to `(x,-z,y)` for `+1` and `(x,z,-y)` for
`-1`; about Y to `(z,y,-x)` for `+1` and `(-z,y,x)` for `-1`; about Z
to `(-y,x,z)` for `+1` and `(y,-x,z)` for `-1`; in particular every
resulting component is again an exact integer in `{-1,0,1}`. -/
theorem rotatePosition_exact_quarter_turn :
    ∀ x ∈ coordVals, ∀ y ∈ coordVals, ∀ z ∈ coordVals,
      rotatePosition ⟨x, y, z⟩ .x 1 = ⟨x, -z, y⟩ ∧
      rotatePosition ⟨x, y, z⟩ .x (-1) = ⟨x, z, -y⟩ ∧
      rotatePosition ⟨x, y, z⟩ .y 1 = ⟨z, y, -x⟩ ∧
      rotatePosition ⟨x, y, z⟩ .y (-1) = ⟨-z, y, x⟩ ∧
      rotatePosition ⟨x, y, z⟩ .z 1 = ⟨-y, x, z⟩ ∧
      rotatePosition ⟨x, y, z⟩ .z (-1) = ⟨y, -x, z⟩ ∧
      ∀ a : Axis, ∀ d ∈ ({1, -1} : Finset ℤ),
        (rotatePosition ⟨x, y, z⟩ a d).x ∈ coordVals ∧
        (rotatePosition ⟨x, y, z⟩ a d).y ∈ coordVals ∧
        (rotatePosition ⟨x, y, z⟩ a d).z ∈ coordVals := by
  decide

/-- Witness for `rotatePosition_exact_quarter_turn` at `(1, 1, -1)`. -/
theorem rotatePosition_exact_quarter_turn_witness :
    (1 : ℤ) ∈ coordVals ∧ (-1 : ℤ) ∈ coordVals ∧
      rotatePosition ⟨1, 1, -1⟩ .x 1 = ⟨1, 1, 1⟩ :=
  ⟨by decide, by decide,
    (rotatePosition_exact_quarter_turn 1 (by decide) 1 (by decide)
      (-1) (by decide)).1⟩

/-- The two sticker slots aligned with each rotation axis (the piece's
extreme faces along that axis): `±X` for axis x, `±Y` for y, `±Z` for z. -/
def axisSlots : Axis → List (Fin 6)
  | .x => [0, 1]
  | .y => [2, 3]
  | .z => [4, 5]

/-- Outward normal of each sticker slot, in the fixed slot order
`[+X, -X, +Y, -Y, +Z, -Z]`. -/
def normalOf (i : Fin 6) : Pos3 :=
  [⟨1, 0, 0⟩, ⟨-1, 0, 0⟩, ⟨0, 1, 0⟩, ⟨0, -1, 0⟩, ⟨0, 0, 1⟩,
    (⟨0, 0, -1⟩ : Pos3)].get i

/-- The slot whose outward normal is `p`, if any. -/
def slotOfNormal? (p : Pos3) : Option (Fin 6) :=
  (List.finRange 6).find? fun i => normalOf i = p

/-- The fixed sticker 4-cycle for each axis, read off the assignment
sequences of `rotateFaceColors`: about X the stickers advance along
`[+Y, +Z, -Y, -Z]` (slots `[2, 4, 3, 5]`) one step per `+1` turn;
about Y along `[+X, -Z, -X, +Z]` (slots `[0, 5, 1, 4]`); about Z along
`[+X, +Y, -X, -Y]` (slots `[0, 2, 1, 3]`). -/
def stickerCycle : Axis → List (Fin 6)
  | .x => [2, 4, 3, 5]
  | .y => [0, 5, 1, 4]
  | .z => [0, 2, 1, 3]

/-- One step forward along a cycle list (identity off the cycle). -/
def advanceInCycle (l : List (Fin 6)) (i : Fin 6) : Fin 6 :=
  if i ∈ l then l.getD ((l.indexOf i + 1) % l.length) i else i

/-- Where the sticker in slot `i` ends up: one step along the axis'
4-cycle for direction `+1`, one step along the reversed cycle
otherwise; slots off the cycle (the axis-aligned ones) stay put. -/
def cycleNext (axis : Axis) (d : ℤ) (i : Fin 6) : Fin 6 :=
  if d = 1 then advanceInCycle (stickerCycle axis) i
  else advanceInCycle (stickerCycle axis).reverse i

/-- **C2.**  For every 6-slot color array, axis, and direction `±1`,
`rotateFaceColors` leaves the two axis-aligned slots unchanged and
moves the sticker of every other slot one step along the axis' fixed
4-cycle (about X: `[+Y, +Z, -Y, -Z]`), forward for `+1` and reversed
for `-1`; and this permutation agrees with how `rotatePosition` moves
the slots' outward normals. -/
theorem rotateFaceColors_fourCycle :
    ∀ (colors : Fin 6 → Color) (axis : Axis) (d : ℤ), d = 1 ∨ d = -1 →
      (∀ i ∈ axisSlots axis, rotateFaceColors colors axis d i = colors i) ∧
      (∀ i, i ∉ axisSlots axis →
        rotateFaceColors colors axis d (cycleNext axis d i) = colors i) ∧
      (∀ i, slotOfNormal? (rotatePosition (normalOf i) axis d) =
        some (cycleNext axis d i)) := by
  intro colors axis d hd
  refine ⟨?_, ?_, ?_⟩
  · intro i hi
    rcases hd with rfl | rfl <;> cases axis <;> fin_cases hi <;> rfl
  · intro i hi
    rcases hd with rfl | rfl <;> cases axis <;> fin_cases i <;>
      first
        | exact absurd (by decide) hi
        | rfl
  · intro i
    rcases hd with rfl | rfl <;> cases axis <;> fin_cases i <;> decide

/-- Witness for `rotateFaceColors_fourCycle` at a concrete color array,
axis X, direction `+1`: the `+Y` sticker moves to the `+Z` slot. -/
theorem rotateFaceColors_fourCycle_witness :
    ((1 : ℤ) = 1 ∨ (1 : ℤ) = -1) ∧
      rotateFaceColors (fun i => [10, 11, 12, 13, 14, 15].get i) .x 1 4 = 12 :=
  ⟨Or.inl rfl,
    ((rotateFaceColors_fourCycle (fun i => [10, 11, 12, 13, 14, 15].get i)
      .x 1 (Or.inl rfl)).2.1 2 (by decide)).symm ▸ rfl⟩

/-- A cube piece as built in `RubiksCube.jsx`:
`{ id: "x_y_z", position: [x,y,z], faceColors: [...] }`. -/
structure Piece where
  id : String
  position : Pos3
  faceColors : Fin 6 → Color
  deriving DecidableEq

/-- The piece id string `` `${x}_${y}_${z}` ``. -/
def mkId (p : Pos3) : String :=
  toString p.x ++ "_" ++ toString p.y ++ "_" ++ toString p.z

/-- The `faceMap` of `RubiksCube.jsx`: each face letter's fixed axis
and value (`'R': {axis:'x', value:1}`, ...). -/
def faceMap : Face → Axis × ℤ
  | .R => (.x, 1)
  | .L => (.x, -1)
  | .U => (.y, 1)
  | .D => (.y, -1)
  | .F => (.z, 1)
  | .B => (.z, -1)

/-- `piece.position[axisIndex]`: the component of a position along an
axis (`['x','y','z'].indexOf(axis)` into the `[x,y,z]` array). -/
def axisCoord (p : Pos3) : Axis → ℤ
  | .x => p.x
  | .y => p.y
  | .z => p.z

/-- The filter predicate of `selectPiecesForRotation`:
`piece.position[axisIndex] === value` for the given face. -/
def faceCond (f : Face) (p : Pos3) : Bool :=
  axisCoord p (faceMap f).1 == (faceMap f).2

/-- `selectPiecesForRotation` of `RubiksCube.jsx`. -/
def selectPiecesForRotation (pieces : List Piece) (f : Face) : List Piece :=
  pieces.filter fun pc => faceCond f pc.position

/-- What the commit in `useFrame` does to a single piece of the active
group: new position by `rotatePosition`, new colors by
`rotateFaceColors`; pieces off the turned face are untouched. -/
def turnPiece (f : Face) (d : ℤ) (pc : Piece) : Piece :=
  if faceCond f pc.position then
    { pc with
      position := rotatePosition pc.position (faceMap f).1 d,
      faceColors := rotateFaceColors pc.faceColors (faceMap f).1 d }
  else pc

/-- The state-level effect of one committed quarter turn that was
started from an idle queue: exactly the pieces currently on the face
are rotated (their ids form the active group at both selection and
commit time). -/
def applyTurn (f : Face) (d : ℤ) (pieces : List Piece) : List Piece :=
  pieces.map (turnPiece f d)

/-- The effect of `turnPiece` on the position alone. -/
def posTurn (f : Face) (d : ℤ) (p : Pos3) : Pos3 :=
  if faceCond f p then rotatePosition p (faceMap f).1 d else p

/-- All components of a position lie in `{-1, 0, 1}`. -/
def inLattice (p : Pos3) : Prop :=
  p.x ∈ coordVals ∧ p.y ∈ coordVals ∧ p.z ∈ coordVals

instance (p : Pos3) : Decidable (inLattice p) :=
  inferInstanceAs (Decidable (_ ∧ _ ∧ _))

theorem turnPiece_position (f : Face) (d : ℤ) (pc : Piece) :
    (turnPiece f d pc).position = posTurn f d pc.position := by
  unfold turnPiece posTurn
  by_cases h : faceCond f pc.position = true <;> simp [h]

/-- Facts about a quarter turn of a lattice position, checked by
computation: membership in the turned face is preserved at every
iterate, and the fourth iterate is the identity. -/
theorem posRot_face_facts :
    ∀ f : Face, ∀ d ∈ ({1, -1} : Finset ℤ),
      ∀ x ∈ coordVals, ∀ y ∈ coordVals, ∀ z ∈ coordVals,
        faceCond f (rotatePosition ⟨x, y, z⟩ (faceMap f).1 d) =
          faceCond f ⟨x, y, z⟩ ∧
        faceCond f (rotatePosition (rotatePosition ⟨x, y, z⟩ (faceMap f).1 d)
          (faceMap f).1 d) = faceCond f ⟨x, y, z⟩ ∧
        faceCond f (rotatePosition (rotatePosition (rotatePosition ⟨x, y, z⟩
          (faceMap f).1 d) (faceMap f).1 d) (faceMap f).1 d) =
          faceCond f ⟨x, y, z⟩ ∧
        rotatePosition (rotatePosition (rotatePosition (rotatePosition
          ⟨x, y, z⟩ (faceMap f).1 d) (faceMap f).1 d) (faceMap f).1 d)
          (faceMap f).1 d = ⟨x, y, z⟩ := by
  decide

/-- Four applications of the sticker permutation are the identity, for
any direction (both branches of the source are 4-cycles). -/
theorem rotateFaceColors_order_four (colors : Fin 6 → Color) (axis : Axis)
    (d : ℤ) :
    rotateFaceColors (rotateFaceColors (rotateFaceColors
      (rotateFaceColors colors axis d) axis d) axis d) axis d = colors := by
  funext i
  cases axis <;> by_cases hd : d = 1 <;>
    fin_cases i <;> simp [rotateFaceColors, hd]

theorem turnPiece_order_four (f : Face) (d : ℤ)
    (hd : d ∈ ({1, -1} : Finset ℤ)) (pc : Piece)
    (hp : inLattice pc.position) :
    turnPiece f d (turnPiece f d (turnPiece f d (turnPiece f d pc))) = pc := by
  obtain ⟨i, p, cols⟩ := pc
  obtain ⟨x, y, z⟩ := p
  obtain ⟨hx, hy, hz⟩ := hp
  obtain ⟨h1, h2, h3, h4⟩ := posRot_face_facts f d hd x hx y hy z hz
  by_cases h : faceCond f ⟨x, y, z⟩ = true
  · simp only [turnPiece, h1, h2, h3, h, if_true]
    simp [h4, rotateFaceColors_order_four]
  · simp only [turnPiece, h, if_false]
    simp [h]

/-- **C5.**  For every face, direction `±1`, and cube state whose piece
positions lie on the lattice, four consecutive committed turns of the
same `(face, direction)` return the whole state — all positions and
all sticker colors — to its exact prior value. -/
theorem applyTurn_order_four :
    ∀ (pieces : List Piece) (f : Face) (d : ℤ), d = 1 ∨ d = -1 →
      (∀ pc ∈ pieces, inLattice pc.position) →
      applyTurn f d (applyTurn f d (applyTurn f d (applyTurn f d pieces))) =
        pieces := by
  intro pieces f d hd hlat
  have hd' : d ∈ ({1, -1} : Finset ℤ) := by
    rcases hd with rfl | rfl <;> decide
  induction pieces with
  | nil => rfl
  | cons pc rest ih =>
    have hrest : ∀ q ∈ rest, inLattice q.position :=
      fun q hq => hlat q (List.mem_cons_of_mem _ hq)
    simp only [applyTurn, List.map_cons] at ih ⊢
    rw [turnPiece_order_four f d hd' pc (hlat pc (List.mem_cons_self _ _)),
      ih hrest]

/-- Witness for `applyTurn_order_four`: four `R,+1` turns on the
canonical state restore it (canonical state defined below). -/
def COLORS_red : Color := 0xC41E3A

def COLORS_green : Color := 0x009E60

def COLORS_blue : Color := 0x0051BA

def COLORS_orange : Color := 0xFF5800

def COLORS_yellow : Color := 0xFFD500

def COLORS_white : Color := 0xFFFFFF

def COLORS_black : Color := 0x212121

/-- The 26 lattice positions in the enumeration order of the source's
triple loop (`x`, then `y`, then `z`, skipping the centre). -/
def allPositions : List Pos3 :=
  [-1, 0, 1].flatMap fun x =>
    [-1, 0, 1].flatMap fun y =>
      [-1, 0, 1].filterMap fun z =>
        if x = 0 ∧ y = 0 ∧ z = 0 then none else some ⟨x, y, z⟩

/-- The canonical sticker array of a piece at `p`:
`[Right(+X) red, Left(-X) orange, Top(+Y) white, Bottom(-Y) yellow,
Front(+Z) green, Back(-Z) blue]`, black on interior slots. -/
def initialFaceColors (p : Pos3) : Fin 6 → Color :=
  fun i =>
    [if p.x = 1 then COLORS_red else COLORS_black,
     if p.x = -1 then COLORS_orange else COLORS_black,
     if p.y = 1 then COLORS_white else COLORS_black,
     if p.y = -1 then COLORS_yellow else COLORS_black,
     if p.z = 1 then COLORS_green else COLORS_black,
     if p.z = -1 then COLORS_blue else COLORS_black].get i

/-- `initialPieces` of `RubiksCube.jsx`: the canonical 26-piece array. -/
def initialPieces : List Piece :=
  allPositions.map fun p => ⟨mkId p, p, initialFaceColors p⟩

theorem applyTurn_order_four_witness :
    ((1 : ℤ) = 1 ∨ (1 : ℤ) = -1) ∧
      (∀ pc ∈ initialPieces, inLattice pc.position) ∧
      applyTurn .R 1 (applyTurn .R 1 (applyTurn .R 1
        (applyTurn .R 1 initialPieces))) = initialPieces :=
  ⟨Or.inl rfl, by decide,
    applyTurn_order_four initialPieces .R 1 (Or.inl rfl) (by decide)⟩

/-- **C9.**  A committed turn preserves the 26-piece invariant: if the
piece positions are a bijection onto the 26 non-origin lattice points
(stated as: the list of positions is a permutation of `allPositions`),
then after the turn there are still exactly 26 pieces and their
positions are still such a bijection. -/
theorem applyTurn_preserves_bijection :
    ∀ (pieces : List Piece) (f : Face) (d : ℤ), d = 1 ∨ d = -1 →
      (pieces.map Piece.position).Perm allPositions →
      ((applyTurn f d pieces).map Piece.position).Perm allPositions ∧
        (applyTurn f d pieces).length = 26 := by
  intro pieces f d hd hperm
  have hfix : (allPositions.map (posTurn f d)).Perm allPositions := by
    rcases hd with rfl | rfl <;> revert f <;> decide
  have hmap : (applyTurn f d pieces).map Piece.position
      = (pieces.map Piece.position).map (posTurn f d) := by
    simp only [applyTurn, List.map_map]
    exact List.map_congr_left fun pc _ => turnPiece_position f d pc
  refine ⟨?_, ?_⟩
  · rw [hmap]
    exact (hperm.map (posTurn f d)).trans hfix
  · have h26 : (pieces.map Piece.position).length = allPositions.length :=
      hperm.length_eq
    simp only [List.length_map] at h26
    simpa [applyTurn] using h26

/-- Witness for `applyTurn_preserves_bijection` at the canonical state
and the turn `U,-1`. -/
theorem applyTurn_preserves_bijection_witness :
    ((-1 : ℤ) = 1 ∨ (-1 : ℤ) = -1) ∧
      (initialPieces.map Piece.position).Perm allPositions ∧
      ((applyTurn .U (-1) initialPieces).map Piece.position).Perm
        allPositions ∧
      (applyTurn .U (-1) initialPieces).length = 26 :=
  ⟨Or.inr rfl, by decide,
    applyTurn_preserves_bijection initialPieces .U (-1) (Or.inr rfl)
      (by decide)⟩

/-- The scheduler state of `RubiksCube.jsx`: the committed `pieces`,
the `isRotating` flag, the pending FIFO `rotationQueue`, and the parts
of `rotationState` that affect the committed result (`axis`,
`direction`, `activeGroup`).  `startTime`, `duration` and the `face`
label only drive the visual interpolation and are omitted. -/
structure CubeSim where
  pieces : List Piece
  isRotating : Bool
  activeGroup : List String
  rotAxis : Option Axis
  direction : ℤ
  queue : List (Face × ℤ)
  deriving DecidableEq

/-- The initial scheduler state: canonical pieces, idle, empty queue. -/
def initialSim : CubeSim :=
  { pieces := initialPieces, isRotating := false, activeGroup := [],
    rotAxis := none, direction := 1, queue := [] }

/-- `addRotation` of `RubiksCube.jsx`: while rotating, append the
request to the queue; otherwise start it at once, selecting the active
group from the current pieces. -/
def addRotation (f : Face) (d : ℤ) (s : CubeSim) : CubeSim :=
  if s.isRotating then
    { s with queue := s.queue ++ [(f, d)] }
  else
    { s with
      rotAxis := some (faceMap f).1,
      direction := d,
      activeGroup := (selectPiecesForRotation s.pieces f).map Piece.id,
      isRotating := true }

/-- The `progress >= 1` commit branch of `useFrame` in
`RubiksCube.jsx`: rotate the pieces whose id is in the active group,
then immediately start the next queued turn if any, else go idle.

The next turn's active group is computed by
`selectPiecesForRotation(nextRotation.face)`, whose `pieces` closure
still holds the pre-commit state in the frame where the commit runs —
the `setPieces` updater has not re-rendered yet.  The model therefore
selects the next group from `s.pieces`, not from `newPieces`. -/
def completeRotation (s : CubeSim) : CubeSim :=
  match s.rotAxis with
  | none => s
  | some a =>
    let newPieces := s.pieces.map fun pc =>
      if s.activeGroup.contains pc.id then
        { pc with
          position := rotatePosition pc.position a s.direction,
          faceColors := rotateFaceColors pc.faceColors a s.direction }
      else pc
    match s.queue with
    | next :: rest =>
      { pieces := newPieces, isRotating := true,
        activeGroup := (selectPiecesForRotation s.pieces next.1).map Piece.id,
        rotAxis := some (faceMap next.1).1,
        direction := next.2, queue := rest }
    | [] =>
      { pieces := newPieces, isRotating := false, activeGroup := [],
        rotAxis := none, direction := 1, queue := [] }

/-- `reset` of `RubiksCube.jsx`: `setRotationQueue([])` and
`setPieces(initialPieces)` — nothing else; `isRotating` and the
in-flight `rotationState` are left untouched. -/
def reset (s : CubeSim) : CubeSim :=
  { s with queue := [], pieces := initialPieces }

/-- **C4 (code bug).**  Enqueuing `R+1, U+1, F+1` from idle and letting
all three commits run does *not* produce the state of applying the
three turns sequentially: at each commit the next turn's active group
is selected from the pre-commit piece positions (a stale closure), so
the second and third turns rotate the wrong piece sets.  Already the
final positions differ. -/
theorem queuedRun_ne_sequential :
    ((completeRotation (completeRotation (completeRotation
        (addRotation .F 1 (addRotation .U 1 (addRotation .R 1
          initialSim)))))).pieces.map Piece.position) ≠
      ((applyTurn .F 1 (applyTurn .U 1 (applyTurn .R 1
        initialPieces))).map Piece.position) ∧
    (completeRotation (completeRotation (completeRotation
      (addRotation .F 1 (addRotation .U 1 (addRotation .R 1
        initialSim)))))).isRotating = false := by
  constructor
  · decide
  · decide

/-- **C7, counterexample.**  `scramble(1)` with random outcome `R,+1`
starts that turn immediately (queue stays empty); calling `reset()`
while it is in flight clears the queue and restores the canonical
pieces, but does not discard the in-flight turn: its commit still runs
on top of the canonical state, so the final pieces are not canonical. -/
theorem reset_inflight_still_commits :
    (completeRotation (reset (addRotation .R 1 initialSim))).pieces ≠
      initialPieces := by
  decide

/-- **C7, amended.**  For every scheduler state, `reset()` clears all
pending queued turns and replaces the pieces with the exact freshly
built canonical 26-piece array; it leaves the in-flight rotation state
(`isRotating`, active group, axis, direction) untouched, so a turn in
flight at reset time still commits on top of the canonical state. -/
theorem reset_clears_queue_and_restores_canonical :
    ∀ s : CubeSim,
      (reset s).queue = [] ∧
      (reset s).pieces = initialPieces ∧
      (reset s).isRotating = s.isRotating ∧
      (reset s).activeGroup = s.activeGroup ∧
      (reset s).rotAxis = s.rotAxis ∧
      (reset s).direction = s.direction :=
  fun _ => ⟨rfl, rfl, rfl, rfl, rfl, rfl⟩

/-- `getGridIndex` of `CubeNet.jsx`: `(1 - v) * 3 + (u + 1)`. -/
def getGridIndex (u v : ℤ) : ℤ := (1 - v) * 3 + (u + 1)

/-- The per-face `(u, v)` pair that `faceData` in `CubeNet.jsx` feeds
to `getGridIndex` for a piece at `p`:
`U: (x, -z)`, `D: (x, z)`, `F: (x, y)`, `B: (-x, y)`, `L: (z, y)`,
`R: (-z, y)`. -/
def netUV (f : Face) (p : Pos3) : ℤ × ℤ :=
  match f with
  | .U => (p.x, -p.z)
  | .D => (p.x, p.z)
  | .F => (p.x, p.y)
  | .B => (-p.x, p.y)
  | .L => (p.z, p.y)
  | .R => (-p.z, p.y)

/-- The condition under which `CubeNet.jsx` writes a piece at `p` into
face `f` of the net (`y === 1` for U, etc.). -/
def onNetFace (f : Face) (p : Pos3) : Bool :=
  match f with
  | .U => p.y == 1
  | .D => p.y == -1
  | .F => p.z == 1
  | .B => p.z == -1
  | .L => p.x == -1
  | .R => p.x == 1

/-- The 0–8 grid index a piece at `p` gets on net face `f`; the net
renderer reads it back as `row = index / 3`, `col = index % 3`. -/
def netIndex (f : Face) (p : Pos3) : ℤ :=
  getGridIndex (netUV f p).1 (netUV f p).2

/-- `convertNetTo3DCoords` of the application root component: the 3D
lattice position of the sticker at `(face, row, col)` of the 2D net
(the `faceType` label it also returns is dropped). -/
def convertNetTo3DCoords (f : Face) (row col : ℤ) : Pos3 :=
  match f with
  | .U => ⟨col - 1, 1, row - 1⟩
  | .D => ⟨col - 1, -1, 1 - row⟩
  | .F => ⟨col - 1, 1 - row, 1⟩
  | .B => ⟨1 - col, 1 - row, -1⟩
  | .L => ⟨-1, 1 - row, col - 1⟩
  | .R => ⟨1, 1 - row, 1 - col⟩

/-- **C6.**  For every face and every net cell `(row, col) ∈ {0,1,2}²`,
`convertNetTo3DCoords` is the exact inverse of the 3D→net mapping of
`CubeNet.jsx`: the produced position lies on that net face, and
mapping it back through `faceData`'s grid index yields the same row
and column. -/
theorem netTo3D_inverse_of_3DToNet :
    ∀ f : Face, ∀ row ∈ ({0, 1, 2} : Finset ℤ), ∀ col ∈ ({0, 1, 2} : Finset ℤ),
      onNetFace f (convertNetTo3DCoords f row col) = true ∧
      netIndex f (convertNetTo3DCoords f row col) / 3 = row ∧
      netIndex f (convertNetTo3DCoords f row col) % 3 = col := by
  decide

/-- Witness for `netTo3D_inverse_of_3DToNet` at `(B, 0, 2)`. -/
theorem netTo3D_inverse_of_3DToNet_witness :
    (0 : ℤ) ∈ ({0, 1, 2} : Finset ℤ) ∧ (2 : ℤ) ∈ ({0, 1, 2} : Finset ℤ) ∧
      (onNetFace .B (convertNetTo3DCoords .B 0 2) = true ∧
        netIndex .B (convertNetTo3DCoords .B 0 2) / 3 = 0 ∧
        netIndex .B (convertNetTo3DCoords .B 0 2) % 3 = 2) :=
  ⟨by decide, by decide,
    netTo3D_inverse_of_3DToNet .B 0 (by decide) 2 (by decide)⟩

/-- The ASCII apostrophe character of the move tokens. -/
def apostrophe : Char := Char.ofNat 39

/-- `parseMove` of the solver utility module: `face = move[0]` — the
first character, with no validation — and `rotation = 2` if the token
contains `"2"` anywhere, else `-1` if it contains an apostrophe (the
source tests the same apostrophe twice), else `1`.  `move[0]` is
modelled as the optional first character (JS `undefined` on the empty
string), and `includes` of a single-character needle as containment in
the character list. -/
def parseMove (move : String) : Option Char × ℤ :=
  (move.data.head?,
    if move.data.contains '2' then 2
    else if move.data.contains apostrophe then -1
    else 1)

/-- **C10.**  `parseMove` accepts every non-empty token without any
failure path: the face is always the token's first character, whatever
it is; the rotation is always one of `{2, -1, 1}`; and the rotation is
exactly `2` if the token contains `'2'` anywhere (taking precedence
over an apostrophe), otherwise `-1` if it contains an apostrophe,
otherwise `1`. -/
theorem parseMove_total_no_validation :
    ∀ (c : Char) (rest : List Char),
      (parseMove ⟨c :: rest⟩).1 = some c ∧
      (parseMove ⟨c :: rest⟩).2 ∈ ([2, -1, 1] : List ℤ) ∧
      ((c :: rest).contains '2' = true → (parseMove ⟨c :: rest⟩).2 = 2) ∧
      ((c :: rest).contains '2' = false →
        (c :: rest).contains apostrophe = true →
        (parseMove ⟨c :: rest⟩).2 = -1) ∧
      ((c :: rest).contains '2' = false →
        (c :: rest).contains apostrophe = false →
        (parseMove ⟨c :: rest⟩).2 = 1) := by
  intro c rest
  refine ⟨rfl, ?_, ?_, ?_, ?_⟩
  · show (if (c :: rest).contains '2' = true then (2 : ℤ)
      else if (c :: rest).contains apostrophe = true then -1 else 1) ∈ _
    split_ifs <;> simp
  · intro h2
    show (if (c :: rest).contains '2' = true then (2 : ℤ)
      else if (c :: rest).contains apostrophe = true then -1 else 1) = 2
    rw [if_pos h2]
  · intro h2 ha
    show (if (c :: rest).contains '2' = true then (2 : ℤ)
      else if (c :: rest).contains apostrophe = true then -1 else 1) = -1
    rw [if_neg (by rw [h2]; exact Bool.false_ne_true), if_pos ha]
  · intro h2 ha
    show (if (c :: rest).contains '2' = true then (2 : ℤ)
      else if (c :: rest).contains apostrophe = true then -1 else 1) = 1
    rw [if_neg (by rw [h2]; exact Bool.false_ne_true),
      if_neg (by rw [ha]; exact Bool.false_ne_true)]

/-- Witness for `parseMove_total_no_validation` on concrete tokens:
`"R'2"` parses to rotation `2` (the `'2'` wins over the apostrophe),
`"U'"` to `-1`, and `"F"` to `1`. -/
theorem parseMove_total_no_validation_witness :
    (parseMove ⟨['R', apostrophe, '2']⟩).1 = some 'R' ∧
      (('R' :: [apostrophe, '2']).contains '2' = true) ∧
      (parseMove ⟨['R', apostrophe, '2']⟩).2 = 2 ∧
      (parseMove ⟨['U', apostrophe]⟩).2 = -1 ∧
      (parseMove ⟨['F']⟩).2 = 1 :=
  ⟨(parseMove_total_no_validation 'R' [apostrophe, '2']).1, by decide,
    (parseMove_total_no_validation 'R' [apostrophe, '2']).2.2.1 (by decide),
    (parseMove_total_no_validation 'U' [apostrophe]).2.2.2.1
      (by decide) (by decide),
    (parseMove_total_no_validation 'F' []).2.2.2.2 (by decide) (by decide)⟩

/-- **C8 (code bug).**  The malformed token `"Q2"` — its first
character is not one of the six face letters — is not rejected:
`parseMove` returns `{face: 'Q', rotation: 2}` with no error and no
validation anywhere on the path, contradicting the specified
`InvalidMoveTokenError` at the parsing boundary. -/
theorem parseMove_accepts_malformed_token :
    parseMove "Q2" = (some 'Q', 2) ∧
      'Q' ∉ (['U', 'D', 'L', 'R', 'F', 'B'] : List Char) := by
  exact ⟨by decide, by decide⟩

/-- `COLOR_MAPPING` of `cubeColorLoader`, in literal (insertion) order:
`r, g, b, o, y, w, black`. -/
def COLOR_MAPPING : List (String × Color) :=
  [("r", 0xC41E3A), ("g", 0x009E60), ("b", 0x0051BA), ("o", 0xFF5800),
   ("y", 0xFFD500), ("w", 0xFFFFFF), ("black", 0x212121)]

/-- `convertColorCharToHex`: `COLOR_MAPPING[colorChar] || black`. -/
def convertColorCharToHex (colorChar : String) : Color :=
  ((COLOR_MAPPING.find? fun e => e.1 == colorChar).map Prod.snd).getD 0x212121

/-- `convertHexToColorChar`: the first `COLOR_MAPPING` entry whose hex
equals `hexColor`, else `'black'`. -/
def convertHexToColorChar (hexColor : Color) : String :=
  ((COLOR_MAPPING.find? fun e => e.2 == hexColor).map Prod.fst).getD "black"

/-- `FACE_INDEX_MAPPING`: the `faceColors` slot of each face letter. -/
def FACE_INDEX_MAPPING : Face → Fin 6
  | .R => 0
  | .L => 1
  | .U => 2
  | .D => 3
  | .F => 4
  | .B => 5

/-- `convertFaceCoordTo3D` of `cubeColorLoader`: the 3D position of
grid cell `(row, col)` of a face of the external JSON format. -/
def convertFaceCoordTo3D (f : Face) (row col : ℤ) : Pos3 :=
  match f with
  | .F => ⟨col - 1, 1 - row, 1⟩
  | .B => ⟨1 - col, 1 - row, -1⟩
  | .L => ⟨-1, 1 - row, 1 - col⟩
  | .R => ⟨1, 1 - row, col - 1⟩
  | .U => ⟨col - 1, 1, row - 1⟩
  | .D => ⟨col - 1, -1, 1 - row⟩

/-- `get3DCoordFaceInfo` of `cubeColorLoader`: every face a position
belongs to, with the `(row, col)` it occupies there, accumulated in
the source's order U, D, R, L, F, B. -/
def get3DCoordFaceInfo (p : Pos3) : List (Face × ℤ × ℤ) :=
  (if p.y = 1 then [(.U, p.z + 1, p.x + 1)] else []) ++
  (if p.y = -1 then [(.D, -p.z + 1, p.x + 1)] else []) ++
  (if p.x = 1 then [(.R, -p.y + 1, -p.z + 1)] else []) ++
  (if p.x = -1 then [(.L, -p.y + 1, p.z + 1)] else []) ++
  (if p.z = 1 then [(.F, -p.y + 1, p.x + 1)] else []) ++
  (if p.z = -1 then [(.B, -p.y + 1, -p.x + 1)] else [])

/-- The external JSON format: 6 face letters, each a 3×3 grid of
single-letter color codes (`''` for an unset cell). -/
abbrev CubeJson : Type := Face → Fin 3 → Fin 3 → String

/-- The all-`''` grids the encoder starts from. -/
def emptyJson : CubeJson := fun _ _ _ => ""

/-- `cubeData[face][row][col] = v` (no cell changes when `(r, c)` is
outside the 3×3 grid, which never happens for lattice positions). -/
def setCell (data : CubeJson) (f : Face) (r c : ℤ) (v : String) : CubeJson :=
  fun f' i j => if f' = f ∧ (i : ℤ) = r ∧ (j : ℤ) = c then v else data f' i j

/-- `convertCubePiecesToJson` of `cubeColorLoader`: for every piece and
every face it belongs to, write the piece's sticker of that face's
slot into the face grid — skipping `'black'` (interior) stickers. -/
def convertCubePiecesToJson (pieces : List Piece) : CubeJson :=
  pieces.foldl
    (fun acc pc =>
      (get3DCoordFaceInfo pc.position).foldl
        (fun acc2 info =>
          let colorChar :=
            convertHexToColorChar (pc.faceColors (FACE_INDEX_MAPPING info.1))
          if colorChar ≠ "black" then
            setCell acc2 info.1 info.2.1 info.2.2 colorChar
          else acc2)
        acc)
    emptyJson

/-- The face iteration order of the decoder: `Object.keys` of the
encoder's literal, `U R F D L B`. -/
def decodeFaces : List Face := [.U, .R, .F, .D, .L, .B]

/-- The row/column indices `0, 1, 2` of a face grid. -/
def cellIdx : List (Fin 3) := [0, 1, 2]

/-- The slot assignment `faceColors[idx] = v` on a 6-slot array. -/
def setSlot (g : Fin 6 → Color) (idx : Fin 6) (v : Color) : Fin 6 → Color :=
  fun i => if i = idx then v else g i

/-- Write `color` into slot `idx` of the piece at `target`.  The
source `find`s the unique piece at `target` and mutates that slot;
positions in the decoded array are pairwise distinct, so this
conditional map performs exactly that update. -/
def setPieceAt (pieces : List Piece) (target : Pos3) (idx : Fin 6)
    (color : Color) : List Piece :=
  pieces.map fun pc =>
    if pc.position = target then
      { pc with faceColors := setSlot pc.faceColors idx color }
    else pc

/-- `convertJsonToCubePieces` of `cubeColorLoader`: start from the 26
pieces with all-black stickers, then for every face and grid cell
write the decoded color into the slot of that face of the piece at
the cell's 3D position. -/
def convertJsonToCubePieces (data : CubeJson) : List Piece :=
  decodeFaces.foldl
    (fun ps f =>
      cellIdx.foldl
        (fun ps2 r =>
          cellIdx.foldl
            (fun ps3 c =>
              setPieceAt ps3 (convertFaceCoordTo3D f (r : ℤ) (c : ℤ))
                (FACE_INDEX_MAPPING f)
                (convertColorCharToHex (data f r c)))
            ps2)
        ps)
    (allPositions.map fun p => ⟨mkId p, p, fun _ => 0x212121⟩)

/-- Slot `i` of a piece at `p` faces outward (it is the extreme face
of the cube along the slot's axis). -/
def outwardSlot (p : Pos3) (i : Fin 6) : Bool :=
  [p.x == 1, p.x == -1, p.y == 1, p.y == -1, p.z == 1, p.z == -1].get i

/-- The six palette colors (`r g b o y w`). -/
def paletteColors : List Color :=
  [0xC41E3A, 0x009E60, 0x0051BA, 0xFF5800, 0xFFD500, 0xFFFFFF]

/-- A valid cube coloring: every outward sticker carries a palette
color and every interior slot carries the black sentinel. -/
def ValidColoring (c : Pos3 → Fin 6 → Color) : Prop :=
  ∀ p ∈ allPositions, ∀ i : Fin 6,
    (outwardSlot p i = true → c p i ∈ paletteColors) ∧
    (outwardSlot p i = false → c p i = 0x212121)

/-- The 26-piece state with coloring `c`, in canonical order. -/
def mkPieces (c : Pos3 → Fin 6 → Color) : List Piece :=
  allPositions.map fun p => ⟨mkId p, p, c p⟩

instance (c : Pos3 → Fin 6 → Color) : Decidable (ValidColoring c) :=
  inferInstanceAs (Decidable (∀ p ∈ allPositions, ∀ i : Fin 6,
    (outwardSlot p i = true → c p i ∈ paletteColors) ∧
    (outwardSlot p i = false → c p i = 0x212121)))

theorem allPositions_eq :
    allPositions =
      [⟨-1, -1, -1⟩, ⟨-1, -1, 0⟩, ⟨-1, -1, 1⟩, ⟨-1, 0, -1⟩, ⟨-1, 0, 0⟩,
       ⟨-1, 0, 1⟩, ⟨-1, 1, -1⟩, ⟨-1, 1, 0⟩, ⟨-1, 1, 1⟩, ⟨0, -1, -1⟩,
       ⟨0, -1, 0⟩, ⟨0, -1, 1⟩, ⟨0, 0, -1⟩, ⟨0, 0, 1⟩, ⟨0, 1, -1⟩,
       ⟨0, 1, 0⟩, ⟨0, 1, 1⟩, ⟨1, -1, -1⟩, ⟨1, -1, 0⟩, ⟨1, -1, 1⟩,
       ⟨1, 0, -1⟩, ⟨1, 0, 0⟩, ⟨1, 0, 1⟩, ⟨1, 1, -1⟩, ⟨1, 1, 0⟩,
       (⟨1, 1, 1⟩ : Pos3)] := by
  decide

/-- The palette colors round-trip through the char tables and never
map to the `'black'` char. -/
theorem palette_char_facts :
    ∀ v ∈ paletteColors,
      ¬(convertHexToColorChar v = "black") ∧
        convertColorCharToHex (convertHexToColorChar v) = v := by
  decide

/-- A valid cube state for testing the round trip: the canonical
coloring except that the Left sticker of the piece at `(-1, 1, 1)` is
red instead of orange. -/
def testColoring : Pos3 → Fin 6 → Color :=
  fun p i => if p = ⟨-1, 1, 1⟩ ∧ i = 1 then 0xC41E3A else initialFaceColors p i

/-- **C3 (code bug).**  `decode(encode(s))` does not reproduce the
color assignment: the encoder (`get3DCoordFaceInfo`) maps the L face
with `col = z + 1` and the R face with `col = -z + 1`, while the
decoder (`convertFaceCoordTo3D`) inverts them as `z = 1 - col` and
`z = col - 1` — each the mirror image of the other — so the round trip
mirrors the L and R faces along the z axis.  On the valid state
`testColoring` the red Left sticker of the piece at `(-1, 1, 1)` comes
back on the piece at `(-1, 1, -1)` and the decoded state differs from
the original.  (The other two 3D→grid mappings in the repository, the
net mapping and the image-analysis mapping, both agree with the
encoder, and the spec demands the six rules be applied consistently in
both directions, so the decoder's L/R columns are the slip.) -/
theorem decode_encode_not_roundtrip :
    ValidColoring testColoring ∧
      convertJsonToCubePieces (convertCubePiecesToJson
        (mkPieces testColoring)) ≠ mkPieces testColoring ∧
      ∃ pc ∈ convertJsonToCubePieces (convertCubePiecesToJson
          (mkPieces testColoring)),
        pc.position = ⟨-1, 1, -1⟩ ∧ pc.faceColors 1 = 0xC41E3A := by
  refine ⟨by decide, ?_, by decide⟩
  intro h
  have h1 : ((convertJsonToCubePieces (convertCubePiecesToJson
      (mkPieces testColoring))).get? 6).map (fun pc => pc.faceColors 1) =
      some 0xC41E3A := by decide
  rw [h] at h1
  have h2 : ((mkPieces testColoring).get? 6).map (fun pc => pc.faceColors 1) =
      some 0xFF5800 := by decide
  rw [h2] at h1
  exact absurd h1 (by decide)
